import Mathlib

/-!
Shallow embedding of the quick-actions / self-heal execution engine of the
dev-cockpit repository: the privilege-escalation gateway (internal/sudo/sudo.go),
the quick-actions action logic, executor state machine and eviction verifier
(internal/modules/quickactions — evolved variant), and the non-interactive
CLI entry point (cmd/devcockpit/main.go).

External processes are modelled by environments that record the observable
outcome of each spawned command (its combined output and error status); the
Go control flow is translated directly over those environments.
-/

set_option maxRecDepth 4096

namespace Sudo

/-- Result of a Go `exec` error: an `*exec.ExitError` carrying an exit code,
or any other error (e.g. executable not found). -/
inductive ExecErr
| exitErr (code : Int)
| otherErr
deriving DecidableEq, Repr

/-- Go `strings.TrimRight(s, "\x7bn")`-style removal of trailing newline
characters. -/
def trimRightNL (s : String) : String :=
  ⟨(s.data.reverse.dropWhile (fun c => c = '\n')).reverse⟩

/-- Go `strings.TrimSpace`: strip leading and trailing whitespace. -/
def trimSpace (s : String) : String :=
  ⟨((s.data.dropWhile Char.isWhitespace).reverse.dropWhile Char.isWhitespace).reverse⟩

/-- Go `strings.ToLower` on ASCII command output. -/
def lowerStr (s : String) : String :=
  ⟨s.data.map Char.toLower⟩

/-- Substring containment, modelling Go `strings.Contains`. -/
def containsSub (s pat : String) : Bool :=
  (List.range (s.length + 1)).any (fun i => pat.data.isPrefixOf (s.data.drop i))

/-- Embeds `requiresPassword` from internal/sudo/sudo.go: heuristic detection
of a privilege-required failure from the subprocess output and error. -/
def requiresPassword (output : String) (err : Option ExecErr) : Bool :=
  match err with
  | none => false
  | some e =>
    let text := lowerStr output
    if containsSub text "a password is required" || containsSub text "sorry, try again" then
      true
    else
      match e with
      | .exitErr 1 => text.length = 0
      | _ => false

/-- Errors surfaced by the gateway, mirroring the Go error values:
`ErrCancelled`, the wrapped prompt failure, and a failed command run
carrying the trimmed combined output. -/
inductive RunError
| cancelled
| promptFailed
| cmdFailed (msg : String)
deriving DecidableEq, Repr

/-- Outcome of the `osascript` credential dialog: either its captured
standard output, or an execution error. -/
inductive DialogResult
| ok (output : String)
| err (e : ExecErr)
deriving DecidableEq, Repr

/-- Embeds `promptPassword` from internal/sudo/sudo.go: a dialog dismissal
(exit code 1) or an empty trimmed answer is `ErrCancelled`; any other
execution error is a wrapped prompt failure. -/
def promptPassword (d : DialogResult) : Except RunError String :=
  match d with
  | .err e =>
    match e with
    | .exitErr 1 => .error .cancelled
    | _ => .error .promptFailed
  | .ok output =>
    let password := trimSpace output
    if password = "" then .error .cancelled else .ok password

/-- The process-wide credential cache (`cachedPassword`); the empty string
means no credential is cached. -/
structure SudoState where
  cachedPassword : String
deriving DecidableEq, Repr

/-- Embeds `ensurePassword` from internal/sudo/sudo.go. Returns the obtained
password (or error), the new cache state, and whether the dialog was shown. -/
def ensurePassword (st : SudoState) (d : DialogResult) :
    Except RunError String × SudoState × Bool :=
  if st.cachedPassword ≠ "" then
    (.ok st.cachedPassword, st, false)
  else
    match promptPassword d with
    | .error e => (.error e, st, true)
    | .ok pwd => (.ok pwd, ⟨pwd⟩, true)

/-- Argument vector of the unprivileged first attempt
(`sudo -n command args...`). -/
def sudoNArgv (command : String) (args : List String) : List String :=
  "sudo" :: "-n" :: command :: args

/-- Argument vector constructed for the elevated subprocess
(`sudoArgs := append([]string\x7b"-S", "-p", "", command\x7d, args...)`,
spawned as `sudo` with those arguments). -/
def sudoSArgv (command : String) (args : List String) : List String :=
  "sudo" :: "-S" :: "-p" :: "" :: command :: args

/-- Environment of one `Run` call: observable behaviour of the unprivileged
attempt, of the credential dialog (consulted only when prompting happens),
and of the elevated attempt (consulted only when elevation happens). -/
structure RunEnv where
  nOutput : String
  nErr : Option ExecErr
  dialog : DialogResult
  sOutput : String
  sErr : Option ExecErr
deriving DecidableEq, Repr

/-- Full observable result of one `Run` call: returned output and error, the
new credential-cache state, whether the dialog was shown, and — when the
elevated subprocess was spawned — its argument vector and standard input. -/
structure RunResult where
  output : String
  error : Option RunError
  state : SudoState
  prompted : Bool
  elevated : Option (List String × String)
deriving DecidableEq, Repr

/-- Embeds `Run` from internal/sudo/sudo.go: try `sudo -n` first; on a
privilege-required failure obtain a credential via `ensurePassword`, then
re-execute with `-S` feeding the password on standard input; clear the
cache when the elevated run itself fails with a privilege-required
signature. -/
def Run (st : SudoState) (command : String) (args : List String) (env : RunEnv) :
    RunResult :=
  match env.nErr with
  | none =>
    { output := trimRightNL env.nOutput, error := none, state := st,
      prompted := false, elevated := none }
  | some e =>
    if ¬ requiresPassword env.nOutput (some e) then
      { output := trimRightNL env.nOutput,
        error := some (.cmdFailed (trimSpace env.nOutput)),
        state := st, prompted := false, elevated := none }
    else
      match ensurePassword st env.dialog with
      | (.error err, st', prompted) =>
        { output := "", error := some err, state := st',
          prompted := prompted, elevated := none }
      | (.ok password, st', prompted) =>
        let argv := sudoSArgv command args
        let stdin := password ++ "\n"
        match env.sErr with
        | some runErr =>
          let st'' : SudoState :=
            if requiresPassword env.sOutput (some runErr) then ⟨""⟩ else st'
          { output := trimRightNL env.sOutput,
            error := some (.cmdFailed (trimSpace env.sOutput)),
            state := st'', prompted := prompted, elevated := some (argv, stdin) }
        | none =>
          { output := trimRightNL env.sOutput, error := none, state := st',
            prompted := prompted, elevated := some (argv, stdin) }

end Sudo

namespace Quickactions

/-- Message produced by `emptyTrashInternal` when the recount decreased but
did not reach zero (`fmt.Errorf("partially cleaned: %d items remain (some
may be in use)", itemsAfter)`). -/
def msgSomeRemain (n : Nat) : String :=
  "partially cleaned: " ++ toString n ++ " items remain (some may be in use)"

/-- Message produced by `emptyTrashInternal` when the recount did not
decrease (`fmt.Errorf("failed to empty trash: %d items remain",
itemsAfter)`). -/
def msgUnchanged (n : Nat) : String :=
  "failed to empty trash: " ++ toString n ++ " items remain"

/-- The three removal strategies of the evolved `emptyTrashInternal`:
direct `rm -rf`, `find -delete` with flag clearing, and sudo removal. -/
inductive TrashStrategy
| directRm
| findDelete
| sudoRm
deriving DecidableEq, Repr

/-- Environment of one Empty Trash invocation: whether `~/.Trash` exists,
the recursive item count before, the success of each removal strategy's
subprocess, and the recount after the strategies ran. -/
structure TrashEnv where
  trashExists : Bool
  itemsBefore : Nat
  rmOk : Bool
  findOk : Bool
  sudoOk : Bool
  itemsAfter : Nat
deriving DecidableEq, Repr

/-- Embeds `emptyTrashInternal` from the quickactions module (evolved
variant): count, short-circuit on an empty trash, three fallback removal
strategies each attempted only while no earlier one reported success,
recount, and classification of the outcome from the two counts alone.
Returns the Go error message (`none` = nil error) and the list of removal
strategies that were attempted, in order. -/
def emptyTrashInternal (env : TrashEnv) : Option String × List TrashStrategy :=
  if ¬ env.trashExists then
    (some "trash directory not found", [])
  else if env.itemsBefore = 0 then
    (none, [])
  else
    let attempts : List TrashStrategy :=
      if env.rmOk then [.directRm]
      else if env.findOk then [.directRm, .findDelete]
      else [.directRm, .findDelete, .sudoRm]
    if env.itemsAfter = 0 then
      (none, attempts)
    else if env.itemsAfter < env.itemsBefore then
      (some (msgSomeRemain env.itemsAfter), attempts)
    else
      (some (msgUnchanged env.itemsAfter), attempts)

/-- Embeds `EmptyTrash` (the exported CLI-facing wrapper, which just calls
`emptyTrashInternal`). -/
def EmptyTrash (env : TrashEnv) : Option String × List TrashStrategy :=
  emptyTrashInternal env

/-- Embeds the `cleanup empty-trash` branch of `main` in
cmd/devcockpit/main.go: call `quickactions.EmptyTrash()`; on error print
"Empty Trash failed: ..." and exit 1; otherwise print
"Trash emptied successfully." and exit 0. Returns (exit status, lines
printed to standard output by this branch). -/
def cleanupEmptyTrashCLI (env : TrashEnv) : Nat × List String :=
  match (EmptyTrash env).1 with
  | some msg => (1, ["Empty Trash failed: " ++ msg])
  | none => (0, ["Trash emptied successfully."])

/-- Environment of one Clean Downloads invocation: whether `~/Downloads`
exists, the count of files older than 30 days before, the error text of the
`find ... -mtime +30 -delete` run (`none` = exit 0), and the recount of
old files afterwards. -/
structure DownloadsEnv where
  dirExists : Bool
  filesBefore : Nat
  deleteErr : Option String
  filesAfter : Nat
deriving DecidableEq, Repr

/-- Embeds `cleanDownloads` from the quickactions module (evolved variant):
count files older than 30 days, short-circuit on zero, delete them with
`find -mtime +30 -delete`, recount, and fail when nothing was removed even
though old files existed. Returns the Go error message (`none` = nil). -/
def cleanDownloads (env : DownloadsEnv) : Option String :=
  if ¬ env.dirExists then
    some "downloads directory not found"
  else if env.filesBefore = 0 then
    none
  else
    match env.deleteErr with
    | some e => some ("failed to clean downloads: " ++ e)
    | none =>
      let removed : Int := (env.filesBefore : Int) - (env.filesAfter : Int)
      if removed = 0 ∧ env.filesBefore > 0 then
        some "could not remove old files (they may be in use)"
      else
        none

/-- A file in the Downloads directory, with its age in days. -/
structure DFile where
  name : String
  ageDays : Nat
deriving DecidableEq, Repr

/-- Selection predicate of `find <dir> -type f -mtime +30`: files strictly
older than 30 days. -/
def isOldFile (f : DFile) : Bool := 30 < f.ageDays

/-- Effect of `find <dir> -type f -mtime +30 -delete` on a directory where
every matched file is removable: exactly the old files are deleted, all
newer files are retained. -/
def runFindDelete (files : List DFile) : List DFile :=
  files.filter (fun f => ¬ isOldFile f)

/-- Instantiates the Clean Downloads environment on a concrete directory in
which the `find` deletion behaves per its documented semantics (all old
files removable). -/
def downloadsEnvOfDir (files : List DFile) : DownloadsEnv :=
  { dirExists := true
    filesBefore := (files.filter isOldFile).length
    deleteErr := none
    filesAfter := ((runFindDelete files).filter isOldFile).length }

end Quickactions

namespace Quickactions

/-- Environment of one Fix WiFi invocation: whether
`networksetup -setairportpower <c> off` (respectively `on`) succeeds for a
candidate identifier `c`, and the interface name detected by
`getActiveNetworkInterface`. -/
structure WiFiEnv where
  offOk : String → Bool
  onOk : String → Bool
  activeInterface : String

/-- The logical network-service names tried first by `fixWiFi`. -/
def wifiServices : List String := ["Wi-Fi", "WiFi", "AirPort"]

/-- The raw interface names tried by `fixWiFi` after the service names. -/
def wifiInterfaces (env : WiFiEnv) : List String :=
  [env.activeInterface, "en0", "en1"]

/-- All candidate identifiers of `fixWiFi`, in the order tried. -/
def wifiCandidates (env : WiFiEnv) : List String :=
  wifiServices ++ wifiInterfaces env

/-- One observable step of the WiFi power cycle: a power-off call, the
2-second settle sleep, or a power-on call. -/
inductive WifiStep
| powerOff (c : String)
| sleep2
| powerOn (c : String)
deriving DecidableEq, Repr

/-- A candidate's power cycle fully succeeds when both the power-off and the
power-on calls succeed. -/
def cycleOk (env : WiFiEnv) (c : String) : Bool :=
  env.offOk c && env.onOk c

/-- The steps performed while trying one candidate: power-off always; the
2-second sleep and the power-on only when the power-off succeeded. -/
def candTrace (env : WiFiEnv) (c : String) : List WifiStep :=
  WifiStep.powerOff c :: (if env.offOk c then [WifiStep.sleep2, WifiStep.powerOn c] else [])

/-- Embeds one of `fixWiFi`'s loops over a candidate list: for each
candidate, power off; on success sleep 2 seconds then power on; break out
on the first candidate whose full cycle succeeds. Returns the success flag
and the performed steps, in order. -/
def tryCycle (env : WiFiEnv) : List String → Bool × List WifiStep
  | [] => (false, [])
  | c :: rest =>
    if env.offOk c then
      if env.onOk c then
        (true, [WifiStep.powerOff c, WifiStep.sleep2, WifiStep.powerOn c])
      else
        let r := tryCycle env rest
        (r.1, WifiStep.powerOff c :: WifiStep.sleep2 :: WifiStep.powerOn c :: r.2)
    else
      let r := tryCycle env rest
      (r.1, WifiStep.powerOff c :: r.2)

/-- Embeds `fixWiFi` from the quickactions module (evolved variant): try the
logical service names in order; if none fully cycles, try the detected
interface then "en0", "en1"; fail only when both lists are exhausted.
Returns the Go error message (`none` = nil) and the performed steps. -/
def fixWiFi (env : WiFiEnv) : Option String × List WifiStep :=
  let r1 := tryCycle env wifiServices
  if r1.1 then
    (none, r1.2)
  else
    let r2 := tryCycle env (wifiInterfaces env)
    if r2.1 then
      (none, r1.2 ++ r2.2)
    else
      (some "could not reset WiFi - no working interface/service found", r1.2 ++ r2.2)

/-- The candidates actually attempted, read off the step trace as the
power-off calls, in order. -/
def attemptedOf (steps : List WifiStep) : List String :=
  steps.filterMap (fun s => match s with | .powerOff c => some c | _ => none)

/-- Specification-side list of candidates a first-success-wins scan should
try: every candidate up to and including the first fully-cycling one, or
the whole list when none cycles. -/
def triedUntilSuccess (env : WiFiEnv) (l : List String) : List String :=
  match l.dropWhile (fun c => !cycleOk env c) with
  | [] => l
  | c :: _ => l.takeWhile (fun c => !cycleOk env c) ++ [c]

/-- The four sub-actions of the composite "fix common issues" meta-action. -/
inductive SubFix
| flushDNS
| clearRAM
| fixPermissions
| rebuildLaunchServices
deriving DecidableEq, Repr

/-- The fixed sub-action sequence of `fixAllCommon`, in invocation order. -/
def fixAllList : List SubFix :=
  [.flushDNS, .clearRAM, .fixPermissions, .rebuildLaunchServices]

/-- Environment of one `fixAllCommon` invocation: whether each sub-action's
closure returns a nil error. -/
structure FixAllEnv where
  flushDNSOk : Bool
  clearRAMOk : Bool
  fixPermissionsOk : Bool
  rebuildLaunchServicesOk : Bool
deriving DecidableEq, Repr

/-- Outcome of one sub-action in the given environment. -/
def subOk (env : FixAllEnv) : SubFix → Bool
  | .flushDNS => env.flushDNSOk
  | .clearRAM => env.clearRAMOk
  | .fixPermissions => env.fixPermissionsOk
  | .rebuildLaunchServices => env.rebuildLaunchServicesOk

/-- Embeds the closure body of `fixAllCommon` from the quickactions module:
run the four fixes in order, tallying successes and failures; build the
combined message; overall success exactly when nothing failed. Returns
(success flag, message, sub-actions invoked in order). -/
def fixAllCommonRun (env : FixAllEnv) : Bool × String × List SubFix :=
  let counts := fixAllList.foldl
    (fun (p : Nat × Nat) f => if subOk env f then (p.1 + 1, p.2) else (p.1, p.2 + 1))
    (0, 0)
  let fixed := counts.1
  let failed := counts.2
  let message :=
    if failed > 0 then
      "⚠ Fixed " ++ toString fixed ++ " issues (" ++ toString failed ++ " failed)"
    else
      "✓ Fixed " ++ toString fixed ++ " common issues"
  (failed = 0, message, fixAllList)

end Quickactions

namespace Quickactions

/-- A catalog entry (`Action` struct): name, description, category, and the
elevation-expected hint. The `Command` closure is modelled separately by
the per-action functions above. -/
structure Action where
  name : String
  description : String
  category : String
  requiresSudo : Bool
deriving DecidableEq, Repr, Inhabited

/-- The quick-actions module state (`Model` struct fields used by `Update`):
geometry, the catalog, the category grouping (an association list modelling
the Go map, missing keys yielding the empty list), selection indices, the
running flag with the running action's name, the last outcome message with
its type, and the spinner frame. -/
structure Model where
  width : Nat
  height : Nat
  actions : List Action
  grouped : List (String × List Action)
  categories : List String
  categoryIndex : Nat
  actionIndex : Int
  running : Bool
  runningAction : String
  status : String
  statusType : String
  spinnerFrame : Nat
deriving DecidableEq, Repr

/-- Messages handled by `Model.Update`: window resize, the focus/blur events
of the surrounding UI, the 100ms spinner tick, a key press, and the
completion message delivered by a finished action closure. -/
inductive Msg
| windowSize (w h : Nat)
| focus
| blur
| spinnerTick
| key (s : String)
| actionComplete (message : String) (success : Bool)
deriving DecidableEq, Repr

/-- Commands returned by `Model.Update` to the runtime: the spinner tick,
the closure executing one catalog action, and the closure executing the
composite fix-all meta-action. -/
inductive CmdE
| tick
| runAction (name : String)
| runFixAll
deriving DecidableEq, Repr

/-- Embeds `visibleActions`: the actions of the selected category ("All"
reads the "All" group). -/
def visibleActions (m : Model) : List Action :=
  if m.categories.length = 0 then []
  else
    let category := m.categories.getD m.categoryIndex ""
    if category = "All" then (m.grouped.lookup "All").getD []
    else (m.grouped.lookup category).getD []

/-- Embeds `clampSelection`: clamp `actionIndex` into the visible range. -/
def clampSelection (m : Model) : Model :=
  let actions := visibleActions m
  if actions.length = 0 then { m with actionIndex := 0 }
  else if m.actionIndex < 0 then { m with actionIndex := 0 }
  else if m.actionIndex ≥ (actions.length : Int) then
    { m with actionIndex := (actions.length : Int) - 1 }
  else m

/-- Embeds the state mutation and returned command of `executeAction`:
mark the session running, clear the previous outcome, reset the spinner,
and return the batched spinner tick plus the action's closure. -/
def executeAction (m : Model) (a : Action) : Model × List CmdE :=
  ({ m with running := true, runningAction := a.name, status := "",
            statusType := "", spinnerFrame := 0 },
   [CmdE.tick, CmdE.runAction a.name])

/-- Embeds the state mutation and returned command of `fixAllCommon`. -/
def fixAllCommonStart (m : Model) : Model × List CmdE :=
  ({ m with running := true, runningAction := "Fix All Common Issues", status := "",
            statusType := "", spinnerFrame := 0 },
   [CmdE.tick, CmdE.runFixAll])

/-- Embeds `Model.Update` from the quickactions module: the message
dispatch of the executor session state machine. Returns the new model and
the commands handed back to the runtime (`[]` = nil command). -/
def Update (m : Model) (msg : Msg) : Model × List CmdE :=
  match msg with
  | .windowSize w h => ({ m with width := w, height := h }, [])
  | .focus =>
    (clampSelection { m with running := false, runningAction := "", status := "",
                             statusType := "", spinnerFrame := 0 }, [])
  | .blur => ({ m with running := false, runningAction := "" }, [])
  | .spinnerTick =>
    if m.running then
      ({ m with spinnerFrame := (m.spinnerFrame + 1) % 10 }, [CmdE.tick])
    else (m, [])
  | .key s =>
    if m.running then (m, [])
    else
      let totalActions := m.actions.length
      if s = "up" ∨ s = "k" then
        if m.actionIndex > 0 then ({ m with actionIndex := m.actionIndex - 1 }, [])
        else (m, [])
      else if s = "down" ∨ s = "j" then
        if m.actionIndex < (totalActions : Int) - 1 then
          ({ m with actionIndex := m.actionIndex + 1 }, [])
        else (m, [])
      else if s = "enter" ∨ s = " " then
        if m.actionIndex < (totalActions : Int) then
          executeAction m (m.actions.getD m.actionIndex.toNat default)
        else (m, [])
      else if s = "f" then fixAllCommonStart m
      else if s = "g" then ({ m with actionIndex := 0 }, [])
      else if s = "G" then ({ m with actionIndex := (totalActions : Int) - 1 }, [])
      else (m, [])
  | .actionComplete message success =>
    ({ m with running := false, runningAction := "", spinnerFrame := 0,
              status := message,
              statusType := if success then "success" else "error" }, [])

end Quickactions

namespace Sudo

/-- Folds a list of `Run` calls (command, arguments, environment) over the
credential-cache state, counting cache populations (empty before, nonempty
after) and cache invalidations (nonempty before, empty after). -/
def runFold (calls : List (String × List String × RunEnv)) (st : SudoState) :
    SudoState × Nat × Nat :=
  match calls with
  | [] => (st, 0, 0)
  | (c, a, e) :: rest =>
    let r := Run st c a e
    let popped := if st.cachedPassword = "" ∧ r.state.cachedPassword ≠ "" then 1 else 0
    let cleared := if st.cachedPassword ≠ "" ∧ r.state.cachedPassword = "" then 1 else 0
    let rec' := runFold rest r.state
    (rec'.1, popped + rec'.2.1, cleared + rec'.2.2)

end Sudo

namespace Quickactions

/-- The full step trace produced by power-cycling each candidate of a list
in order. -/
def stepsOf (env : WiFiEnv) (l : List String) : List WifiStep :=
  (l.map (candTrace env)).flatten

end Quickactions

namespace Quickactions

/-- The partial-outcome message differs from the outright-failure message
at every residual count. -/
theorem msgSomeRemain_ne_msgUnchanged (n : Nat) : msgSomeRemain n ≠ msgUnchanged n := by
  intro h
  have h2 := congrArg String.length h
  simp [msgSomeRemain, msgUnchanged, String.length_append] at h2
  have e1 : "partially cleaned: ".length = 19 := rfl
  have e2 : " items remain (some may be in use)".length = 34 := rfl
  have e3 : "failed to empty trash: ".length = 23 := rfl
  have e4 : " items remain".length = 13 := rfl
  omega

end Quickactions

/-- C1: for every Empty Trash invocation on an existing trash directory, a
pre-count of 0 yields success with no removal strategy attempted; otherwise
a final recount of 0 yields success, a recount strictly between 0 and the
pre-count yields the distinct partial outcome carrying the residual count,
and an unchanged count yields the outright failure outcome. -/
theorem Quickactions.emptyTrash_outcome_classification (env : Quickactions.TrashEnv)
    (hex : env.trashExists = true) :
    (env.itemsBefore = 0 → Quickactions.emptyTrashInternal env = (none, [])) ∧
    (0 < env.itemsBefore →
      (env.itemsAfter = 0 → (Quickactions.emptyTrashInternal env).1 = none) ∧
      (0 < env.itemsAfter → env.itemsAfter < env.itemsBefore →
        (Quickactions.emptyTrashInternal env).1 =
          some (Quickactions.msgSomeRemain env.itemsAfter) ∧
        Quickactions.msgSomeRemain env.itemsAfter ≠
          Quickactions.msgUnchanged env.itemsAfter) ∧
      (env.itemsAfter = env.itemsBefore →
        (Quickactions.emptyTrashInternal env).1 =
          some (Quickactions.msgUnchanged env.itemsAfter))) := by
  refine ⟨?_, ?_⟩
  · intro h0
    simp [Quickactions.emptyTrashInternal, hex, h0]
  · intro hpos
    have hb0 : ¬ env.itemsBefore = 0 := by omega
    refine ⟨?_, ?_, ?_⟩
    · intro ha
      simp [Quickactions.emptyTrashInternal, hex, hb0, ha]
    · intro ha1 ha2
      have haf : ¬ env.itemsAfter = 0 := by omega
      simp [Quickactions.emptyTrashInternal, hex, hb0, haf, ha2]
      exact Quickactions.msgSomeRemain_ne_msgUnchanged env.itemsAfter
    · intro heq
      have haf : ¬ env.itemsAfter = 0 := by omega
      have hlt : ¬ env.itemsAfter < env.itemsBefore := by omega
      simp [Quickactions.emptyTrashInternal, hex, hb0, haf, hlt]

/-- C1 witness: a trash directory with 3 items before and 2 after is
classified as the partial outcome with residual count 2. -/
theorem Quickactions.emptyTrash_outcome_classification_witness :
    (Quickactions.emptyTrashInternal ⟨true, 3, false, false, false, 2⟩).1 =
      some (Quickactions.msgSomeRemain 2) :=
  (((Quickactions.emptyTrash_outcome_classification ⟨true, 3, false, false, false, 2⟩
    rfl).2 (by decide)).2.1 (by decide) (by decide)).1

/-- C2: the `cleanup empty-trash` CLI entry point exits nonzero exactly when
`EmptyTrash()` returns an error; for an existing, non-empty trash this is
exactly when the final recount is nonzero; on success it exits 0 and its
standard output is the single line "Trash emptied successfully.". -/
theorem Quickactions.cleanup_cli_exit_status (env : Quickactions.TrashEnv) :
    ((Quickactions.cleanupEmptyTrashCLI env).1 = 0 ↔
      (Quickactions.EmptyTrash env).1 = none) ∧
    ((Quickactions.cleanupEmptyTrashCLI env).1 = 0 →
      (Quickactions.cleanupEmptyTrashCLI env).2 = ["Trash emptied successfully."]) ∧
    (env.trashExists = true → 0 < env.itemsBefore →
      ((Quickactions.cleanupEmptyTrashCLI env).1 ≠ 0 ↔ env.itemsAfter ≠ 0)) := by
  have hnone : env.trashExists = true → 0 < env.itemsBefore →
      ((Quickactions.EmptyTrash env).1 = none ↔ env.itemsAfter = 0) := by
    intro hex hpos
    have hb0 : ¬ env.itemsBefore = 0 := by omega
    unfold Quickactions.EmptyTrash Quickactions.emptyTrashInternal
    by_cases ha : env.itemsAfter = 0
    · simp [hex, hb0, ha]
    · by_cases hlt : env.itemsAfter < env.itemsBefore <;> simp [hex, hb0, ha, hlt]
  refine ⟨?_, ?_, ?_⟩
  · unfold Quickactions.cleanupEmptyTrashCLI
    cases h : (Quickactions.EmptyTrash env).1 <;> simp [h]
  · unfold Quickactions.cleanupEmptyTrashCLI
    cases h : (Quickactions.EmptyTrash env).1 <;> simp [h]
  · intro hex hpos
    have h2 := hnone hex hpos
    unfold Quickactions.cleanupEmptyTrashCLI
    cases h : (Quickactions.EmptyTrash env).1 <;> simp [h] at h2 ⊢ <;> omega

/-- C2 witness: with a non-empty trash whose final recount is 2, the CLI
exits with status 1; with a final recount of 0 it exits 0 printing the
success line. -/
theorem Quickactions.cleanup_cli_exit_status_witness :
    (Quickactions.cleanupEmptyTrashCLI ⟨true, 3, false, false, false, 2⟩).1 ≠ 0 ∧
    (Quickactions.cleanupEmptyTrashCLI ⟨true, 3, true, false, false, 0⟩).2 =
      ["Trash emptied successfully."] :=
  ⟨((Quickactions.cleanup_cli_exit_status ⟨true, 3, false, false, false, 2⟩).2.2
      rfl (by decide)).mpr (by decide),
   (Quickactions.cleanup_cli_exit_status ⟨true, 3, true, false, false, 0⟩).2.1
      (by decide)⟩

namespace Quickactions

/-- Prepending a candidate whose cycle fails extends the tried list. -/
theorem triedUntilSuccess_cons_neg (env : WiFiEnv) (c : String) (rest : List String)
    (h : cycleOk env c = false) :
    triedUntilSuccess env (c :: rest) = c :: triedUntilSuccess env rest := by
  unfold triedUntilSuccess
  simp [List.dropWhile_cons, List.takeWhile_cons, h]
  cases hr : rest.dropWhile (fun c => !cycleOk env c) <;> simp [hr]

/-- A candidate whose cycle succeeds is the only one tried. -/
theorem triedUntilSuccess_cons_pos (env : WiFiEnv) (c : String) (rest : List String)
    (h : cycleOk env c = true) :
    triedUntilSuccess env (c :: rest) = [c] := by
  unfold triedUntilSuccess
  simp [List.dropWhile_cons, List.takeWhile_cons, h]

/-- One candidate loop of `fixWiFi` computed in closed form: it succeeds
exactly when some candidate's full cycle succeeds, and its step trace
power-cycles every candidate up to and including the first success. -/
theorem tryCycle_eq (env : WiFiEnv) (l : List String) :
    tryCycle env l = (l.any (cycleOk env), stepsOf env (triedUntilSuccess env l)) := by
  induction l with
  | nil => simp [tryCycle, triedUntilSuccess, stepsOf]
  | cons c rest ih =>
    by_cases hoff : env.offOk c
    · by_cases hon : env.onOk c
      · have hc : cycleOk env c = true := by simp [cycleOk, hoff, hon]
        simp [tryCycle, hoff, hon, triedUntilSuccess_cons_pos env c rest hc,
              stepsOf, candTrace, List.any_cons, hc]
      · have hc : cycleOk env c = false := by simp [cycleOk, hon]
        simp [tryCycle, hoff, hon, ih, triedUntilSuccess_cons_neg env c rest hc,
              stepsOf, candTrace, List.any_cons, hc]
    · have hc : cycleOk env c = false := by simp [cycleOk, hoff]
      simp [tryCycle, hoff, ih, triedUntilSuccess_cons_neg env c rest hc,
            stepsOf, candTrace, List.any_cons, hc]

/-- Step traces distribute over candidate-list concatenation. -/
theorem stepsOf_append (env : WiFiEnv) (a b : List String) :
    stepsOf env (a ++ b) = stepsOf env a ++ stepsOf env b := by
  simp [stepsOf]

/-- With no successful candidate, the whole list is tried. -/
theorem triedUntilSuccess_of_none (env : WiFiEnv) (l : List String)
    (h : l.any (cycleOk env) = false) : triedUntilSuccess env l = l := by
  induction l with
  | nil => rfl
  | cons c rest ih =>
    rw [List.any_cons, Bool.or_eq_false_iff] at h
    rw [triedUntilSuccess_cons_neg env c rest h.1, ih h.2]

/-- When the first list holds no successful candidate, trying the
concatenation tries all of it and then scans the second list. -/
theorem triedUntilSuccess_append_of_none (env : WiFiEnv) (l1 l2 : List String)
    (h : l1.any (cycleOk env) = false) :
    triedUntilSuccess env (l1 ++ l2) = l1 ++ triedUntilSuccess env l2 := by
  induction l1 with
  | nil => simp
  | cons c rest ih =>
    rw [List.any_cons, Bool.or_eq_false_iff] at h
    rw [List.cons_append, triedUntilSuccess_cons_neg env c _ h.1, ih h.2]
    simp

/-- When the first list holds a successful candidate, the second list is
never reached. -/
theorem triedUntilSuccess_append_of_some (env : WiFiEnv) (l1 l2 : List String)
    (h : l1.any (cycleOk env) = true) :
    triedUntilSuccess env (l1 ++ l2) = triedUntilSuccess env l1 := by
  induction l1 with
  | nil => simp at h
  | cons c rest ih =>
    by_cases hc : cycleOk env c
    · rw [List.cons_append, triedUntilSuccess_cons_pos env c _ hc,
          triedUntilSuccess_cons_pos env c rest hc]
    · rw [List.any_cons] at h
      have hb : cycleOk env c = false := by simp [hc]
      rw [hb, Bool.false_or] at h
      rw [List.cons_append, triedUntilSuccess_cons_neg env c _ hb,
          ih h, triedUntilSuccess_cons_neg env c rest hb]

/-- The power-off calls of a candidate list's step trace are exactly the
candidates, in order. -/
theorem attemptedOf_stepsOf (env : WiFiEnv) (l : List String) :
    attemptedOf (stepsOf env l) = l := by
  induction l with
  | nil => rfl
  | cons c rest ih =>
    by_cases hoff : env.offOk c <;>
      simp [stepsOf, attemptedOf, candTrace, hoff, List.filterMap_append] at ih ⊢ <;>
      simpa [attemptedOf, stepsOf] using ih

/-- Every candidate tried before the last one failed its cycle. -/
theorem mem_dropLast_triedUntilSuccess (env : WiFiEnv) (l : List String) (c' : String)
    (h : c' ∈ (triedUntilSuccess env l).dropLast) : cycleOk env c' = false := by
  unfold triedUntilSuccess at h
  cases hd : l.dropWhile (fun c => !cycleOk env c) with
  | nil =>
    rw [hd] at h
    have hall := List.dropWhile_eq_nil_iff.mp hd
    have hmem : c' ∈ l := List.dropLast_subset l h
    simpa using hall c' hmem
  | cons c0 t =>
    rw [hd] at h
    rw [List.dropLast_concat] at h
    have := List.mem_takeWhile_imp h
    simpa using this

end Quickactions

/-- C4: the Fix WiFi action tries its candidate identifiers strictly in
order, logical service names before raw interface names, power-cycling each
(power-off, 2-second sleep, power-on); it stops at the first candidate
whose full cycle succeeds, never touching a later candidate, and reports
failure exactly when every candidate of the exhausted list failed. -/
theorem Quickactions.fixWiFi_order_first_success (env : Quickactions.WiFiEnv) :
    ((Quickactions.fixWiFi env).1 = none ↔
      (Quickactions.wifiCandidates env).any (Quickactions.cycleOk env) = true) ∧
    Quickactions.wifiCandidates env =
      Quickactions.wifiServices ++ Quickactions.wifiInterfaces env ∧
    (Quickactions.fixWiFi env).2 =
      Quickactions.stepsOf env
        (Quickactions.triedUntilSuccess env (Quickactions.wifiCandidates env)) ∧
    Quickactions.attemptedOf (Quickactions.fixWiFi env).2 =
      Quickactions.triedUntilSuccess env (Quickactions.wifiCandidates env) ∧
    (∀ c ∈ (Quickactions.attemptedOf (Quickactions.fixWiFi env).2).dropLast,
      Quickactions.cycleOk env c = false) ∧
    ((Quickactions.fixWiFi env).1 ≠ none →
      Quickactions.attemptedOf (Quickactions.fixWiFi env).2 =
        Quickactions.wifiCandidates env ∧
      ∀ c ∈ Quickactions.wifiCandidates env, Quickactions.cycleOk env c = false) := by
  have htrace : (Quickactions.fixWiFi env).2 =
      Quickactions.stepsOf env
        (Quickactions.triedUntilSuccess env (Quickactions.wifiCandidates env)) ∧
      ((Quickactions.fixWiFi env).1 = none ↔
        (Quickactions.wifiCandidates env).any (Quickactions.cycleOk env) = true) := by
    unfold Quickactions.fixWiFi Quickactions.wifiCandidates
    rw [Quickactions.tryCycle_eq, Quickactions.tryCycle_eq]
    by_cases h1 : Quickactions.wifiServices.any (Quickactions.cycleOk env)
    · simp only [h1, if_true]
      constructor
      · rw [Quickactions.triedUntilSuccess_append_of_some env _ _ h1]
      · simp [List.any_append, h1]
    · simp only [Bool.not_eq_true] at h1
      simp only [h1, Bool.false_eq_true, if_false]
      by_cases h2 : (Quickactions.wifiInterfaces env).any (Quickactions.cycleOk env)
      · simp only [h2, if_true]
        constructor
        · rw [Quickactions.triedUntilSuccess_append_of_none env _ _ h1,
              Quickactions.stepsOf_append, Quickactions.triedUntilSuccess_of_none env _ h1]
        · simp [List.any_append, h1, h2]
      · simp only [Bool.not_eq_true] at h2
        simp only [h2, Bool.false_eq_true, if_false]
        constructor
        · rw [Quickactions.triedUntilSuccess_append_of_none env _ _ h1,
              Quickactions.stepsOf_append, Quickactions.triedUntilSuccess_of_none env _ h1,
              Quickactions.triedUntilSuccess_of_none env _ h2]
        · simp [List.any_append, h1, h2]
  have hattempted : Quickactions.attemptedOf (Quickactions.fixWiFi env).2 =
      Quickactions.triedUntilSuccess env (Quickactions.wifiCandidates env) := by
    rw [htrace.1, Quickactions.attemptedOf_stepsOf]
  refine ⟨htrace.2, rfl, htrace.1, hattempted, ?_, ?_⟩
  · intro c hc
    rw [hattempted] at hc
    exact Quickactions.mem_dropLast_triedUntilSuccess env _ c hc
  · intro hfail
    have hany : (Quickactions.wifiCandidates env).any (Quickactions.cycleOk env) = false := by
      rcases h : (Quickactions.wifiCandidates env).any (Quickactions.cycleOk env)
      · rfl
      · exact absurd (htrace.2.mpr h) hfail
    have hallfail : ∀ c ∈ Quickactions.wifiCandidates env,
        Quickactions.cycleOk env c = false := by
      intro c hc
      have := List.any_eq_false.mp hany c hc
      simpa using this
    refine ⟨?_, hallfail⟩
    rw [hattempted, Quickactions.triedUntilSuccess_of_none env _ hany]

/-- C4 witness: when only the third candidate "AirPort" cycles, the first
two candidates are attempted, the action stops there with success, and the
fourth candidate is never tried. -/
theorem Quickactions.fixWiFi_order_first_success_witness :
    (Quickactions.fixWiFi
      ⟨fun c => c = "AirPort" || c = "en0", fun c => c = "AirPort" || c = "en0", "en5"⟩).1 =
        none ∧
    Quickactions.attemptedOf (Quickactions.fixWiFi
      ⟨fun c => c = "AirPort" || c = "en0", fun c => c = "AirPort" || c = "en0", "en5"⟩).2 =
        ["Wi-Fi", "WiFi", "AirPort"] := by
  have h := Quickactions.fixWiFi_order_first_success
    ⟨fun c => c = "AirPort" || c = "en0", fun c => c = "AirPort" || c = "en0", "en5"⟩
  refine ⟨h.1.mpr (by decide), ?_⟩
  rw [h.2.2.2.1]
  decide

/-- C5 counterexample: a Downloads directory with 3 old files before the
attempt and 1 old file remaining after it — old files remain after the
deletion attempt despite some existing beforehand — yet `cleanDownloads`
returns success (nil error), contradicting the claim that it fails exactly
in this situation. -/
theorem Quickactions.cleanDownloads_claim_counterexample :
    Quickactions.cleanDownloads ⟨true, 3, none, 1⟩ = none ∧
    (3 : Nat) > 0 ∧ (1 : Nat) > 0 ∧ (1 : Nat) < 3 := by decide

/-- C5 amended: the Clean Downloads action deletes only files older than
the 30-day threshold (newer files retained), succeeds trivially when no old
files exist beforehand, and fails exactly when the delete command itself
errors or when no old file at all was removed (post-count equal to
pre-count) despite some existing beforehand; a partial removal is reported
as success. -/
theorem Quickactions.cleanDownloads_failure_condition (env : Quickactions.DownloadsEnv)
    (hdir : env.dirExists = true) :
    (env.filesBefore = 0 → Quickactions.cleanDownloads env = none) ∧
    (Quickactions.cleanDownloads env ≠ none ↔
      0 < env.filesBefore ∧
        (env.deleteErr ≠ none ∨ env.filesAfter = env.filesBefore)) ∧
    (∀ files : List Quickactions.DFile, ∀ f ∈ files,
      (f ∈ Quickactions.runFindDelete files ↔ Quickactions.isOldFile f = false)) ∧
    (∀ files : List Quickactions.DFile,
      Quickactions.cleanDownloads (Quickactions.downloadsEnvOfDir files) = none) := by
  refine ⟨?_, ?_, ?_, ?_⟩
  · intro h0
    simp [Quickactions.cleanDownloads, hdir, h0]
  · by_cases h0 : env.filesBefore = 0
    · simp [Quickactions.cleanDownloads, hdir, h0]
    · cases hdel : env.deleteErr with
      | some e => simp [Quickactions.cleanDownloads, hdir, h0, hdel]; omega
      | none =>
        by_cases heq : env.filesAfter = env.filesBefore
        · simp [Quickactions.cleanDownloads, hdir, h0, hdel, heq]
          omega
        · have : ¬ ((env.filesBefore : Int) - (env.filesAfter : Int) = 0 ∧
              env.filesBefore > 0) := by
            intro ⟨h1, _⟩
            omega
          simp [Quickactions.cleanDownloads, hdir, h0, hdel, this]
          omega
  · intro files f hf
    simp [Quickactions.runFindDelete, List.mem_filter, hf]
  · intro files
    have hafter : ((Quickactions.runFindDelete files).filter Quickactions.isOldFile).length
        = 0 := by
      simp [Quickactions.runFindDelete, List.filter_filter]
    by_cases h0 : (files.filter Quickactions.isOldFile).length = 0
    · simp [Quickactions.cleanDownloads, Quickactions.downloadsEnvOfDir, h0]
    · simp [Quickactions.cleanDownloads, Quickactions.downloadsEnvOfDir, h0, hafter]

/-- C5 witness: a directory of 3 old files and 2 new files is cleaned with
exactly the 2 new files retained and a success outcome. -/
theorem Quickactions.cleanDownloads_failure_condition_witness :
    Quickactions.runFindDelete
      [⟨"a", 40⟩, ⟨"b", 50⟩, ⟨"c", 31⟩, ⟨"d", 2⟩, ⟨"e", 30⟩] = [⟨"d", 2⟩, ⟨"e", 30⟩] ∧
    Quickactions.cleanDownloads (Quickactions.downloadsEnvOfDir
      [⟨"a", 40⟩, ⟨"b", 50⟩, ⟨"c", 31⟩, ⟨"d", 2⟩, ⟨"e", 30⟩]) = none := by
  have h := Quickactions.cleanDownloads_failure_condition
    (Quickactions.downloadsEnvOfDir
      [⟨"a", 40⟩, ⟨"b", 50⟩, ⟨"c", 31⟩, ⟨"d", 2⟩, ⟨"e", 30⟩]) (by decide)
  exact ⟨by decide, h.2.2.2 [⟨"a", 40⟩, ⟨"b", 50⟩, ⟨"c", 31⟩, ⟨"d", 2⟩, ⟨"e", 30⟩]⟩

/-- C7: the composite fix-all meta-action invokes exactly the four
sub-actions DNS flush, RAM clear, permissions fix, and launch-services
rebuild in that order, never aborting on a sub-action failure; its combined
message reports the exact success and failure counts when anything failed,
and the overall outcome is success exactly when no sub-action failed. -/
theorem Quickactions.fixAllCommon_aggregation (env : Quickactions.FixAllEnv) :
    (Quickactions.fixAllCommonRun env).2.2 = Quickactions.fixAllList ∧
    Quickactions.fixAllList = [Quickactions.SubFix.flushDNS, Quickactions.SubFix.clearRAM,
      Quickactions.SubFix.fixPermissions, Quickactions.SubFix.rebuildLaunchServices] ∧
    ((Quickactions.fixAllCommonRun env).1 = true ↔
      (Quickactions.fixAllList.filter
        (fun f => !Quickactions.subOk env f)).length = 0) ∧
    ((Quickactions.fixAllList.filter (Quickactions.subOk env)).length +
      (Quickactions.fixAllList.filter (fun f => !Quickactions.subOk env f)).length = 4) ∧
    (0 < (Quickactions.fixAllList.filter (fun f => !Quickactions.subOk env f)).length →
      (Quickactions.fixAllCommonRun env).2.1 =
        "⚠ Fixed " ++
          toString (Quickactions.fixAllList.filter (Quickactions.subOk env)).length ++
        " issues (" ++
          toString (Quickactions.fixAllList.filter
            (fun f => !Quickactions.subOk env f)).length ++ " failed)") ∧
    ((Quickactions.fixAllList.filter (fun f => !Quickactions.subOk env f)).length = 0 →
      (Quickactions.fixAllCommonRun env).2.1 =
        "✓ Fixed " ++
          toString (Quickactions.fixAllList.filter (Quickactions.subOk env)).length ++
        " common issues") := by
  obtain ⟨a, b, c, d⟩ := env
  cases a <;> cases b <;> cases c <;> cases d <;> decide

/-- C7 witness: with 2 of the 4 sub-actions failing, the message reports
exactly 2 succeeded and 2 failed, and the overall outcome is non-success. -/
theorem Quickactions.fixAllCommon_aggregation_witness :
    (Quickactions.fixAllCommonRun ⟨true, false, true, false⟩).2.1 =
      "⚠ Fixed 2 issues (2 failed)" ∧
    (Quickactions.fixAllCommonRun ⟨true, false, true, false⟩).1 = false := by
  have h := Quickactions.fixAllCommon_aggregation ⟨true, false, true, false⟩
  refine ⟨?_, ?_⟩
  · have hm := h.2.2.2.2.1 (by decide)
    rw [hm]
    decide
  · have hnot : ¬ ((Quickactions.fixAllCommonRun ⟨true, false, true, false⟩).1 = true) := by
      intro hb
      have := h.2.2.1.mp hb
      simp at this
      exact absurd (this Quickactions.SubFix.clearRAM (by decide)) (by decide)
    exact Bool.eq_false_iff.mpr hnot

namespace Quickactions

/-- Clamping the selection changes at most the selection index. -/
theorem clampSelection_preserves (m : Model) :
    (clampSelection m).status = m.status ∧
    (clampSelection m).statusType = m.statusType ∧
    (clampSelection m).spinnerFrame = m.spinnerFrame ∧
    (clampSelection m).running = m.running ∧
    (clampSelection m).runningAction = m.runningAction := by
  unfold clampSelection
  by_cases h1 : (visibleActions m).length = 0 <;>
  by_cases h2 : m.actionIndex < 0 <;>
  by_cases h3 : m.actionIndex ≥ ((visibleActions m).length : Int) <;>
  simp [h1, h2, h3]

end Quickactions

/-- C6 counterexample: losing focus (a Blur event) while no action is
running leaves the displayed outcome message and the spinner tick count
untouched, contradicting the claim that Blur clears the outcome and resets
the indicator to zero. -/
theorem Quickactions.update_blur_counterexample :
    (Quickactions.Update
      ⟨80, 24, [], [], ["All"], 0, 0, false, "", "✓ Flush DNS completed successfully",
        "success", 3⟩ Quickactions.Msg.blur).1.status =
      "✓ Flush DNS completed successfully" ∧
    (Quickactions.Update
      ⟨80, 24, [], [], ["All"], 0, 0, false, "", "✓ Flush DNS completed successfully",
        "success", 3⟩ Quickactions.Msg.blur).1.spinnerFrame = 3 ∧
    (⟨80, 24, [], [], ["All"], 0, 0, false, "", "✓ Flush DNS completed successfully",
        "success", 3⟩ : Quickactions.Model).running = false := by
  decide

/-- C6 amended: the outcome message and tick indicator are cleared when the
view gains focus (Focus event), not when it loses focus; a Blur event only
resets the running flag and running-action name, leaves the outcome message,
its type and the tick count untouched, and emits no command — so it never
starts, completes or cancels anything. -/
theorem Quickactions.update_blur_focus_outcome (m : Quickactions.Model) :
    Quickactions.Update m Quickactions.Msg.blur =
      ({ m with running := false, runningAction := "" }, []) ∧
    (Quickactions.Update m Quickactions.Msg.blur).1.status = m.status ∧
    (Quickactions.Update m Quickactions.Msg.blur).1.statusType = m.statusType ∧
    (Quickactions.Update m Quickactions.Msg.blur).1.spinnerFrame = m.spinnerFrame ∧
    (Quickactions.Update m Quickactions.Msg.focus).1.status = "" ∧
    (Quickactions.Update m Quickactions.Msg.focus).1.statusType = "" ∧
    (Quickactions.Update m Quickactions.Msg.focus).1.spinnerFrame = 0 ∧
    (Quickactions.Update m Quickactions.Msg.focus).2 = [] := by
  have hb : Quickactions.Update m Quickactions.Msg.blur =
      ({ m with running := false, runningAction := "" }, []) := rfl
  have hf := Quickactions.clampSelection_preserves
    { m with running := false, runningAction := "", status := "",
             statusType := "", spinnerFrame := 0 }
  exact ⟨hb, by rw [hb], by rw [hb], by rw [hb],
    by simpa [Quickactions.Update] using hf.1,
    by simpa [Quickactions.Update] using hf.2.1,
    by simpa [Quickactions.Update] using hf.2.2.1, rfl⟩

/-- C8: while the executor session is Running, every key input — including
the action-selection and composite fix-all keys — is rejected with the
session unchanged and no command issued; a command that starts an action
(a catalog action or the fix-all meta-action) is only ever issued from a
state whose running flag is off. -/
theorem Quickactions.executor_single_action :
    (∀ (m : Quickactions.Model) (k : String), m.running = true →
      Quickactions.Update m (Quickactions.Msg.key k) = (m, [])) ∧
    (∀ (m : Quickactions.Model) (msg : Quickactions.Msg) (name : String),
      (Quickactions.CmdE.runAction name ∈ (Quickactions.Update m msg).2 ∨
        Quickactions.CmdE.runFixAll ∈ (Quickactions.Update m msg).2) →
      m.running = false) := by
  constructor
  · intro m k h
    simp [Quickactions.Update, h]
  · intro m msg name hmem
    by_cases hr : m.running = true
    · exfalso
      cases msg <;>
        simp [Quickactions.Update, hr, Quickactions.executeAction,
              Quickactions.fixAllCommonStart] at hmem
    · simpa using hr

/-- C8 witness: a concrete Running session ignores the fix-all key "f"
without any state change or command. -/
theorem Quickactions.executor_single_action_witness :
    Quickactions.Update
      ⟨80, 24, [], [], ["All"], 0, 0, true, "Clear RAM", "", "", 4⟩
      (Quickactions.Msg.key "f") =
    (⟨80, 24, [], [], ["All"], 0, 0, true, "Clear RAM", "", "", 4⟩, []) :=
  Quickactions.executor_single_action.1
    ⟨80, 24, [], [], ["All"], 0, 0, true, "Clear RAM", "", "", 4⟩ "f" rfl

namespace Sudo

/-- A password returned by the prompt is never the empty string. -/
theorem promptPassword_ok_ne_empty (d : DialogResult) (pwd : String)
    (h : promptPassword d = .ok pwd) : pwd ≠ "" := by
  unfold promptPassword at h
  cases d with
  | err e => cases e with
    | exitErr code =>
      by_cases hc : code = 1
      · subst hc; simp at h
      · simp [hc] at h
    | otherErr => simp at h
  | ok out =>
    by_cases ht : trimSpace out = ""
    · simp [ht] at h
    · simp [ht] at h
      rw [← h]
      exact ht

/-- With a nonempty cache, `ensurePassword` reuses the cached secret
without prompting. -/
theorem ensurePassword_cached (st : SudoState) (d : DialogResult)
    (hc : st.cachedPassword ≠ "") :
    ensurePassword st d = (.ok st.cachedPassword, st, false) := by
  unfold ensurePassword
  simp [hc]

/-- With an empty cache, a failing prompt leaves the cache empty. -/
theorem ensurePassword_prompt_error (st : SudoState) (d : DialogResult) (e : RunError)
    (hc : st.cachedPassword = "") (hp : promptPassword d = .error e) :
    ensurePassword st d = (.error e, st, true) := by
  unfold ensurePassword
  simp [hc, hp]

/-- With an empty cache, a successful prompt caches the returned secret. -/
theorem ensurePassword_prompt_ok (st : SudoState) (d : DialogResult) (pwd : String)
    (hc : st.cachedPassword = "") (hp : promptPassword d = .ok pwd) :
    ensurePassword st d = (.ok pwd, ⟨pwd⟩, true) := by
  unfold ensurePassword
  simp [hc, hp]

end Sudo

/-- C10: a credential dialog that completes without error but yields an
empty (trimmed) answer is treated as the cancelled outcome `ErrCancelled`,
never as a usable credential; the cache is never populated with the empty
string, and an empty cache entry means "no credential cached", so the next
elevation need prompts afresh while a nonempty entry is reused silently. -/
theorem Sudo.empty_credential_handling :
    (∀ out : String, Sudo.trimSpace out = "" →
      Sudo.promptPassword (.ok out) = .error .cancelled) ∧
    (∀ (d : Sudo.DialogResult) (pwd : String),
      Sudo.promptPassword d = .ok pwd → pwd ≠ "") ∧
    (∀ (st : Sudo.SudoState) (d : Sudo.DialogResult) (pwd : String),
      st.cachedPassword = "" → Sudo.promptPassword d = .ok pwd →
      Sudo.ensurePassword st d = (.ok pwd, ⟨pwd⟩, true) ∧ pwd ≠ "") ∧
    (∀ (st : Sudo.SudoState) (d : Sudo.DialogResult) (e : Sudo.RunError),
      st.cachedPassword = "" → Sudo.promptPassword d = .error e →
      Sudo.ensurePassword st d = (.error e, st, true)) ∧
    (∀ (st : Sudo.SudoState) (d : Sudo.DialogResult),
      st.cachedPassword = "" → (Sudo.ensurePassword st d).2.2 = true) ∧
    (∀ (st : Sudo.SudoState) (d : Sudo.DialogResult),
      st.cachedPassword ≠ "" →
      Sudo.ensurePassword st d = (.ok st.cachedPassword, st, false)) := by
  refine ⟨?_, ?_, ?_, ?_, ?_, ?_⟩
  · intro out h
    unfold Sudo.promptPassword
    simp [h]
  · intro d pwd h
    exact Sudo.promptPassword_ok_ne_empty d pwd h
  · intro st d pwd hc hp
    exact ⟨Sudo.ensurePassword_prompt_ok st d pwd hc hp,
      Sudo.promptPassword_ok_ne_empty d pwd hp⟩
  · intro st d e hc hp
    exact Sudo.ensurePassword_prompt_error st d e hc hp
  · intro st d hc
    cases hp : Sudo.promptPassword d with
    | error e => rw [Sudo.ensurePassword_prompt_error st d e hc hp]
    | ok pwd => rw [Sudo.ensurePassword_prompt_ok st d pwd hc hp]
  · intro st d hc
    exact Sudo.ensurePassword_cached st d hc

/-- C10 witness: a dialog answer of only blanks is cancelled, and an empty
cache prompts. -/
theorem Sudo.empty_credential_handling_witness :
    Sudo.promptPassword (.ok "   ") = .error .cancelled ∧
    (Sudo.ensurePassword ⟨""⟩ (.ok "hunter2")).2.2 = true :=
  ⟨Sudo.empty_credential_handling.1 "   " (by decide),
   Sudo.empty_credential_handling.2.2.2.2.1 ⟨""⟩ (.ok "hunter2") rfl⟩

namespace Sudo

/-- Over any call sequence, cache populations never outrun invalidations by
more than the head start an initially empty cache allows. -/
theorem runFold_pop_bound (calls : List (String × List String × RunEnv))
    (st : SudoState) :
    (runFold calls st).2.1 ≤
      (runFold calls st).2.2 + (if st.cachedPassword = "" then 1 else 0) := by
  induction calls generalizing st with
  | nil => simp [runFold]
  | cons hd tl ih =>
    obtain ⟨c, a, e⟩ := hd
    have ih' := ih (Run st c a e).state
    simp only [runFold]
    by_cases h1 : st.cachedPassword = "" <;>
      by_cases h2 : (Run st c a e).state.cachedPassword = "" <;>
      simp [h1, h2] at ih' ⊢ <;> omega

end Sudo

/-- C3: the credential cache is reused without re-prompting whenever it is
nonempty; the prompt fires exactly on an elevation need with an empty
cache; the elevated attempt is fed the cached secret; the cache is cleared
exactly when an elevated execution fails with a privilege-required
signature (and untouched when no elevated subprocess ran); and over any
call sequence starting unpopulated, populations exceed invalidations by at
most one — at most once per run unless invalidated. -/
theorem Sudo.credential_cache_protocol (st : Sudo.SudoState) (command : String)
    (args : List String) (env : Sudo.RunEnv) :
    (st.cachedPassword ≠ "" → (Sudo.Run st command args env).prompted = false) ∧
    ((Sudo.Run st command args env).prompted = true ↔
      st.cachedPassword = "" ∧
      Sudo.requiresPassword env.nOutput env.nErr = true) ∧
    (st.cachedPassword ≠ "" →
      ∀ p : List String × String, (Sudo.Run st command args env).elevated = some p →
        p.2 = st.cachedPassword ++ "\n") ∧
    ((Sudo.Run st command args env).elevated = none →
      (Sudo.Run st command args env).state = st) ∧
    ((Sudo.Run st command args env).elevated ≠ none →
      ((Sudo.Run st command args env).state.cachedPassword = "" ↔
        Sudo.requiresPassword env.sOutput env.sErr = true)) ∧
    (∀ calls : List (String × List String × Sudo.RunEnv),
      (Sudo.runFold calls ⟨""⟩).2.1 ≤ (Sudo.runFold calls ⟨""⟩).2.2 + 1) := by
  have hmain :
      (st.cachedPassword ≠ "" → (Sudo.Run st command args env).prompted = false) ∧
      ((Sudo.Run st command args env).prompted = true ↔
        st.cachedPassword = "" ∧
        Sudo.requiresPassword env.nOutput env.nErr = true) ∧
      (st.cachedPassword ≠ "" →
        ∀ p : List String × String, (Sudo.Run st command args env).elevated = some p →
          p.2 = st.cachedPassword ++ "\n") ∧
      ((Sudo.Run st command args env).elevated = none →
        (Sudo.Run st command args env).state = st) ∧
      ((Sudo.Run st command args env).elevated ≠ none →
        ((Sudo.Run st command args env).state.cachedPassword = "" ↔
          Sudo.requiresPassword env.sOutput env.sErr = true)) := by
    unfold Sudo.Run
    cases hn : env.nErr with
    | none => simp [Sudo.requiresPassword]
    | some e =>
      by_cases hreq : Sudo.requiresPassword env.nOutput (some e)
      · simp only [hreq, not_true_eq_false, if_false]
        by_cases hc : st.cachedPassword = ""
        · cases hp : Sudo.promptPassword env.dialog with
          | error perr =>
            rw [Sudo.ensurePassword_prompt_error st env.dialog perr hc hp]
            simp [hc, hreq]
          | ok pwd =>
            have hpe := Sudo.promptPassword_ok_ne_empty env.dialog pwd hp
            rw [Sudo.ensurePassword_prompt_ok st env.dialog pwd hc hp]
            cases hs : env.sErr with
            | none => simp [hc, hreq, hpe, Sudo.requiresPassword]
            | some serr =>
              by_cases hsr : Sudo.requiresPassword env.sOutput (some serr) <;>
                simp [hc, hreq, hpe, hsr]
        · rw [Sudo.ensurePassword_cached st env.dialog hc]
          cases hs : env.sErr with
          | none => simp [hc, hreq, Sudo.requiresPassword]
          | some serr =>
            by_cases hsr : Sudo.requiresPassword env.sOutput (some serr) <;>
              simp [hc, hreq, hsr]
      · have hreq2 : Sudo.requiresPassword env.nOutput (some e) = false := by
          simpa using hreq
        simp [hreq2]
  refine ⟨hmain.1, hmain.2.1, hmain.2.2.1, hmain.2.2.2.1, hmain.2.2.2.2, ?_⟩
  intro calls
  have := Sudo.runFold_pop_bound calls ⟨""⟩
  simpa using this

/-- C3 witness: with "pw" cached, an elevation need re-runs without any
prompt; and a concrete elevated failure carrying the privilege signature
clears the cache. -/
theorem Sudo.credential_cache_protocol_witness :
    (Sudo.Run ⟨"pw"⟩ "purge" []
      ⟨"", some (.exitErr 1), .ok "x", "ok", none⟩).prompted = false ∧
    (Sudo.Run ⟨"pw"⟩ "purge" []
      ⟨"", some (.exitErr 1), .ok "x", "sorry, try again", some (.exitErr 1)⟩).state.cachedPassword
      = "" :=
  ⟨(Sudo.credential_cache_protocol ⟨"pw"⟩ "purge" []
      ⟨"", some (.exitErr 1), .ok "x", "ok", none⟩).1 (by decide),
   ((Sudo.credential_cache_protocol ⟨"pw"⟩ "purge" []
      ⟨"", some (.exitErr 1), .ok "x", "sorry, try again", some (.exitErr 1)⟩).2.2.2.2.1
      (by decide)).mpr (by decide)⟩

/-- C9 counterexample: with the secret "ls" cached and the command also
named "ls", the argument vector constructed for the elevated subprocess
contains an occurrence of the secret — the unrestricted "contains no
occurrence of the secret" clause fails when the secret textually collides
with the command. -/
theorem Sudo.elevated_argv_counterexample :
    (Sudo.Run ⟨"ls"⟩ "ls" [] ⟨"", some (.exitErr 1), .ok "x", "", none⟩).elevated =
      some (["sudo", "-S", "-p", "", "ls"], "ls\n") ∧
    (Sudo.Run ⟨"ls"⟩ "ls" []
      ⟨"", some (.exitErr 1), .ok "x", "", none⟩).state.cachedPassword = "ls" ∧
    "ls" ∈ ["sudo", "-S", "-p", "", "ls"] := by decide

/-- C9 amended: the argument vector of the elevated subprocess is always
`sudo -S -p '' command args...`, hence identical for every pair of secrets
(independent of the secret — the secret travels only on standard input);
and it contains no occurrence of the secret provided the secret differs
from those fixed tokens, from the command name and from each argument. -/
theorem Sudo.elevated_argv_secret_independent :
    (∀ (st : Sudo.SudoState) (command : String) (args : List String)
       (env : Sudo.RunEnv) (argv : List String) (stdin : String),
      (Sudo.Run st command args env).elevated = some (argv, stdin) →
      argv = Sudo.sudoSArgv command args) ∧
    (∀ (command : String) (args : List String) (st1 st2 : Sudo.SudoState)
       (env1 env2 : Sudo.RunEnv) (p1 p2 : List String × String),
      (Sudo.Run st1 command args env1).elevated = some p1 →
      (Sudo.Run st2 command args env2).elevated = some p2 → p1.1 = p2.1) ∧
    (∀ (command : String) (args : List String) (secret : String),
      secret ≠ "sudo" → secret ≠ "-S" → secret ≠ "-p" → secret ≠ "" →
      secret ≠ command → secret ∉ args → secret ∉ Sudo.sudoSArgv command args) := by
  have hshape : ∀ (st : Sudo.SudoState) (command : String) (args : List String)
      (env : Sudo.RunEnv) (argv : List String) (stdin : String),
      (Sudo.Run st command args env).elevated = some (argv, stdin) →
      argv = Sudo.sudoSArgv command args := by
    intro st command args env argv stdin h
    unfold Sudo.Run at h
    cases hn : env.nErr with
    | none => rw [hn] at h; simp at h
    | some e =>
      rw [hn] at h
      by_cases hreq : Sudo.requiresPassword env.nOutput (some e)
      · simp only [hreq, not_true_eq_false, if_false] at h
        rcases hE : Sudo.ensurePassword st env.dialog with ⟨res, st', p⟩
        rw [hE] at h
        cases res with
        | error err => simp at h
        | ok password =>
          cases hs : env.sErr with
          | some runErr =>
            rw [hs] at h
            simp at h
            exact h.1.symm
          | none =>
            rw [hs] at h
            simp at h
            exact h.1.symm
      · have hreq2 : Sudo.requiresPassword env.nOutput (some e) = false := by
          simpa using hreq
        simp [hreq2] at h
  refine ⟨hshape, ?_, ?_⟩
  · intro command args st1 st2 env1 env2 p1 p2 h1 h2
    obtain ⟨a1, s1⟩ := p1
    obtain ⟨a2, s2⟩ := p2
    rw [hshape st1 command args env1 a1 s1 h1, hshape st2 command args env2 a2 s2 h2]
  · intro command args secret h1 h2 h3 h4 h5 h6
    simp [Sudo.sudoSArgv, List.mem_cons, h1, h2, h3, h4, h5]
    exact h6

/-- C9 witness: at the command "purge" with no arguments, two different
secrets yield the same elevated argument vector, and a secret distinct
from all argv entries does not occur in it. -/
theorem Sudo.elevated_argv_secret_independent_witness :
    ((Sudo.Run ⟨"pw1"⟩ "purge" []
        ⟨"", some (.exitErr 1), .ok "x", "", none⟩).elevated.map Prod.fst =
      (Sudo.Run ⟨"pw2"⟩ "purge" []
        ⟨"", some (.exitErr 1), .ok "y", "", none⟩).elevated.map Prod.fst) ∧
    "hunter2" ∉ Sudo.sudoSArgv "purge" [] := by
  constructor
  · have h := Sudo.elevated_argv_secret_independent.2.1 "purge" []
      ⟨"pw1"⟩ ⟨"pw2"⟩
      ⟨"", some (.exitErr 1), .ok "x", "", none⟩
      ⟨"", some (.exitErr 1), .ok "y", "", none⟩
      (["sudo", "-S", "-p", "", "purge"], "pw1\n")
      (["sudo", "-S", "-p", "", "purge"], "pw2\n")
      (by decide) (by decide)
    decide
  · exact Sudo.elevated_argv_secret_independent.2.2 "purge" [] "hunter2"
      (by decide) (by decide) (by decide) (by decide) (by decide) (by decide)
